import Mathlib

/-!
Shallow embedding of `src/api/cache.py` (StockXpert `CacheService`).

The Python module wraps a remote Redis store with an in-process dictionary
fallback.  We model:

* JSON-serializable values as the inductive `Json` (Python values passed to
  `json.dumps` / produced by `json.loads`); the textual wire encoding of the
  `json` standard library is abstracted as the `Json` value itself, with the
  possibility of (de)serialization failure injected through explicit fault
  flags (`json.dumps`/`json.loads` raising is the only behaviour of the
  library the module observes besides the round trip).
* The remote Redis store as an association list from wire key to an entry
  carrying the stored payload and its absolute expiry instant (`SETEX`
  semantics); Redis hides expired entries from `GET`/`KEYS`/`DEL`.
* Time as natural-number seconds (`datetime.now()` becomes an explicit
  `now` argument).
* Network failure as a `fault : Option String` argument: `some e` means the
  first call on the Redis client raises an exception with message `e`
  (connection error / timeout); `none` means the network is healthy.
  The bodies of the Python `try:` blocks are functions into
  `Except String _`; the facade methods wrap them with the corresponding
  `except Exception` handler, exactly as in the source.
-/

set_option autoImplicit false

namespace StockXpert

/-- JSON-like values: the Python objects the cache stores (dicts with string
keys, lists, strings, integers, booleans, null). -/
inductive Json where
  | null
  | bool (b : Bool)
  | num (n : Int)
  | str (s : String)
  | arr (xs : List Json)
  | obj (fields : List (String × Json))

/-- First-match lookup in an association list (Python `dict` read). -/
def assocGet {α : Type} : List (String × α) → String → Option α
  | [], _ => none
  | (k, v) :: rest, key => if k = key then some v else assocGet rest key

/-- Insert-or-replace in an association list (Python `d[k] = v`). -/
def assocSet {α : Type} : List (String × α) → String → α → List (String × α)
  | [], key, v => [(key, v)]
  | (k, w) :: rest, key, v =>
      if k = key then (key, v) :: rest else (k, w) :: assocSet rest key v

/-- Remove a key from an association list (Python `del d[k]`). -/
def assocErase {α : Type} (m : List (String × α)) (key : String) :
    List (String × α) :=
  m.filter (fun p => p.1 ≠ key)

/-- An entry of the remote store: the stored payload together with the
absolute instant at which Redis expires it (`SETEX name time value` stores
`value` until `now + time`). -/
structure RedisEntry where
  value : Json
  expireAt : Nat

/-- A fallback-cache entry: `{"timestamp": datetime.now(), "data": data}`. -/
structure FallbackEntry where
  timestamp : Nat
  data : Json

/-- The state a `CacheService` instance closes over: whether
`self.redis_client` is non-`None` (decided once in `__init__`), the contents
of the remote store, `self.fallback_cache`, and `self.cache_ttl`. -/
structure CacheState where
  redis_active : Bool
  redis_store : List (String × RedisEntry)
  fallback_cache : List (String × FallbackEntry)
  cache_ttl : Nat

/-- The fixed namespace applied to every key sent to the remote store
(`f"stockxpert:{key}"`). -/
def nsKey (key : String) : String := "stockxpert:" ++ key

/-- Whether a wire key matches the glob pattern `"stockxpert:*"`. -/
def matchesNs (s : String) : Bool := "stockxpert:".data.isPrefixOf s.data

/-- Embeds `CacheService._serialize_data`: `json.dumps(data, default=str,
ensure_ascii=False)`, returning the text `"{}"` (the empty object) if the
library raises.  `serFault` injects that failure. -/
def serialize_data (serFault : Bool) (data : Json) : Json :=
  if serFault then Json.obj [] else data

/-- Embeds `CacheService._deserialize_data`: `json.loads(data)`, returning the empty
dict `{}` if the library raises.  `deserFault` injects that failure. -/
def deserialize_data (deserFault : Bool) (payload : Json) : Json :=
  if deserFault then Json.obj [] else payload

/-- Embeds `GET name` on the remote store at instant `now`: Redis returns the
payload only while the entry has not expired. -/
def redisGet (store : List (String × RedisEntry)) (now : Nat)
    (name : String) : Option Json :=
  match assocGet store name with
  | some e => if now < e.expireAt then some e.value else none
  | none => none

/-- Embeds `KEYS "stockxpert:*"` at instant `now`: the distinct wire keys that match
the pattern and are live. -/
def redisKeys (store : List (String × RedisEntry)) (now : Nat) :
    List String :=
  ((store.map Prod.fst).dedup).filter
    (fun n => matchesNs n && (redisGet store now n).isSome)

/-- Embeds `DEL name₁ … nameₖ`: removes the named keys and returns how many of them
existed (expired entries count as absent). -/
def redisDel (store : List (String × RedisEntry)) (now : Nat)
    (names : List String) : Nat × List (String × RedisEntry) :=
  ((names.filter (fun n => (redisGet store now n).isSome)).length,
    store.filter (fun p => ¬ names.contains p.1))

/-- Body of the `try:` block of `CacheService.set_cache`. -/
def set_cache_run (st : CacheState) (now : Nat) (fault : Option String)
    (serFault : Bool) (key : String) (data : Json) :
    Except String (Bool × CacheState) :=
  if st.redis_active then
    -- serialized_data = self._serialize_data(data);
    -- result = self.redis_client.setex(name=f"stockxpert:{key}",
    --                                  time=self.cache_ttl,
    --                                  value=serialized_data)
    match fault with
    | some e => .error e
    | none =>
        let serialized := serialize_data serFault data
        let store' := assocSet st.redis_store (nsKey key)
          ⟨serialized, now + st.cache_ttl⟩
        -- redis-py `setex` returns True on success, so `bool(result)` is True
        .ok (true, { st with redis_store := store' })
  else
    -- self.fallback_cache[key] = {"timestamp": datetime.now(), "data": data}
    .ok (true,
      { st with fallback_cache := assocSet st.fallback_cache key ⟨now, data⟩ })

/-- Embeds `CacheService.set_cache`: the `try:` body with its
`except Exception: return False` handler (the state is left as it was). -/
def set_cache (st : CacheState) (now : Nat) (fault : Option String)
    (serFault : Bool) (key : String) (data : Json) : Bool × CacheState :=
  match set_cache_run st now fault serFault key data with
  | .ok r => r
  | .error _ => (false, st)

/-- Body of the `try:` block of `CacheService.get_cache`. -/
def get_cache_run (st : CacheState) (now : Nat) (fault : Option String)
    (deserFault : Bool) (key : String) :
    Except String (Option Json × CacheState) :=
  if st.redis_active then
    -- cached_data = self.redis_client.get(f"stockxpert:{key}")
    match fault with
    | some e => .error e
    | none =>
        match redisGet st.redis_store now (nsKey key) with
        | some payload =>
            -- `if cached_data:` — a json.dumps payload is never the empty
            -- string, so truthiness coincides with presence
            .ok (some (deserialize_data deserFault payload), st)
        | none => .ok (none, st)
  else
    match assocGet st.fallback_cache key with
    | some entry =>
        -- age = (datetime.now() - cache_entry["timestamp"]).total_seconds()
        if (now : Int) - entry.timestamp < st.cache_ttl then
          .ok (some entry.data, st)
        else
          -- del self.fallback_cache[key]  (clean up expired entry)
          .ok (none,
            { st with fallback_cache := assocErase st.fallback_cache key })
    | none => .ok (none, st)

/-- Embeds `CacheService.get_cache`: the `try:` body with its
`except Exception: return None` handler. -/
def get_cache (st : CacheState) (now : Nat) (fault : Option String)
    (deserFault : Bool) (key : String) : Option Json × CacheState :=
  match get_cache_run st now fault deserFault key with
  | .ok r => r
  | .error _ => (none, st)

/-- Body of the `try:` block of `CacheService.delete_cache`. -/
def delete_cache_run (st : CacheState) (now : Nat) (fault : Option String)
    (key : String) : Except String (Bool × CacheState) :=
  if st.redis_active then
    -- result = self.redis_client.delete(f"stockxpert:{key}"); bool(result)
    match fault with
    | some e => .error e
    | none =>
        let (count, store') := redisDel st.redis_store now [nsKey key]
        .ok (count != 0, { st with redis_store := store' })
  else
    match assocGet st.fallback_cache key with
    | some _ =>
        .ok (true,
          { st with fallback_cache := assocErase st.fallback_cache key })
    | none => .ok (false, st)

/-- Embeds `CacheService.delete_cache`: the `try:` body with its
`except Exception: return False` handler. -/
def delete_cache (st : CacheState) (now : Nat) (fault : Option String)
    (key : String) : Bool × CacheState :=
  match delete_cache_run st now fault key with
  | .ok r => r
  | .error _ => (false, st)

/-- Body of the `try:` block of `CacheService.clear_cache`. -/
def clear_cache_run (st : CacheState) (now : Nat) (fault : Option String) :
    Except String (Bool × CacheState) :=
  if st.redis_active then
    -- keys = self.redis_client.keys("stockxpert:*")
    match fault with
    | some e => .error e
    | none =>
        let keys := redisKeys st.redis_store now
        if keys.isEmpty then
          .ok (true, st)
        else
          -- result = self.redis_client.delete(*keys); bool(result)
          let (count, store') := redisDel st.redis_store now keys
          .ok (count != 0, { st with redis_store := store' })
  else
    -- self.fallback_cache.clear()
    .ok (true, { st with fallback_cache := [] })

/-- Embeds `CacheService.clear_cache`: the `try:` body with its
`except Exception: return False` handler. -/
def clear_cache (st : CacheState) (now : Nat) (fault : Option String) :
    Bool × CacheState :=
  match clear_cache_run st now fault with
  | .ok r => r
  | .error _ => (false, st)

/-- The fields the module reads off `redis_client.info()`
(`used_memory_human`, `keyspace_hits`, `keyspace_misses`; `dict.get` with a
default makes each optional). -/
structure RedisInfo where
  used_memory_human : Option String
  keyspace_hits : Option Int
  keyspace_misses : Option Int

/-- Body of the `try:` block of `CacheService.get_cache_stats`; the result is
the flat string-to-primitive mapping the method builds. -/
def get_cache_stats_run (st : CacheState) (now : Nat) (fault : Option String)
    (info : RedisInfo) : Except String (List (String × Json)) :=
  if st.redis_active then
    -- info = self.redis_client.info(); keys = self.redis_client.keys(...)
    match fault with
    | some e => .error e
    | none =>
        .ok [("backend", .str "redis"),
             ("connected", .bool true),
             ("total_keys", .num (redisKeys st.redis_store now).length),
             ("memory_usage", .str (info.used_memory_human.getD "Unknown")),
             ("hits", .num (info.keyspace_hits.getD 0)),
             ("misses", .num (info.keyspace_misses.getD 0))]
  else
    .ok [("backend", .str "in-memory"),
         ("connected", .bool false),
         ("total_keys", .num st.fallback_cache.length),
         ("memory_usage", .str "Unknown"),
         ("hits", .num 0),
         ("misses", .num 0)]

/-- Embeds `CacheService.get_cache_stats`: the `try:` body with its
`except Exception: return {"error": str(e)}` handler. -/
def get_cache_stats (st : CacheState) (now : Nat) (fault : Option String)
    (info : RedisInfo) : List (String × Json) :=
  match get_cache_stats_run st now fault info with
  | .ok r => r
  | .error e => [("error", .str e)]

/-- Body of the `try:` block of `CacheService.health_check`; `elapsedMs` is
the measured round-trip time of the `ping()` probe
(`round((datetime.now() - start_time).total_seconds() * 1000, 2)`). -/
def health_check_run (st : CacheState) (fault : Option String)
    (elapsedMs : Nat) : Except String (List (String × Json)) :=
  if st.redis_active then
    -- self.redis_client.ping()
    match fault with
    | some e => .error e
    | none =>
        .ok [("status", .str "healthy"),
             ("backend", .str "redis"),
             ("response_time_ms", .num elapsedMs),
             ("connected", .bool true)]
  else
    .ok [("status", .str "degraded"),
         ("backend", .str "in-memory"),
         ("response_time_ms", .num 0),
         ("connected", .bool false),
         ("message", .str "Using fallback in-memory cache")]

/-- Embeds `CacheService.health_check`: the `try:` body with its `except` handler
returning the "unhealthy" payload carrying the captured error. -/
def health_check (st : CacheState) (fault : Option String)
    (elapsedMs : Nat) : List (String × Json) :=
  match health_check_run st fault elapsedMs with
  | .ok r => r
  | .error e =>
      [("status", .str "unhealthy"),
       ("backend", .str "redis"),
       ("connected", .bool false),
       ("error", .str e)]

/-- Embeds `os.getenv(name, default)` followed by `int(...)`: `none` models the
`ValueError` that `int` raises on a malformed environment value. -/
def envInt (env : List (String × String)) (name : String) (dflt : Int) :
    Option Int :=
  match assocGet env name with
  | none => some dflt
  | some s => s.toInt?

/-- The configuration `CacheService.__init__` assembles: `cache_ttl` and the
keyword arguments of `redis.from_url`. -/
structure CacheConfig where
  cache_ttl : Option Int
  redis_url : String
  max_connections : Option Int
  socket_connect_timeout : Int
  socket_timeout : Int
  retry_on_timeout : Bool
  health_check_interval : Nat

/-- The configuration read in `CacheService.__init__` as a function of the
process environment: `CACHE_TTL_SECONDS`, `REDIS_URL` and
`REDIS_MAX_CONNECTIONS` come from `os.getenv`; `socket_connect_timeout=5`,
`socket_timeout=5`, `retry_on_timeout=True` and `health_check_interval=30`
are literal keyword arguments. -/
def initConfig (env : List (String × String)) : CacheConfig :=
  { cache_ttl := envInt env "CACHE_TTL_SECONDS" 3600
    redis_url := (assocGet env "REDIS_URL").getD "redis://localhost:6379/0"
    max_connections := envInt env "REDIS_MAX_CONNECTIONS" 10
    socket_connect_timeout := 5
    socket_timeout := 5
    retry_on_timeout := true
    health_check_interval := 30 }

/-- The state of a freshly constructed `CacheService`: `reachable` records
whether the `ping()` in `__init__` succeeded (on failure `redis_client` is
set back to `None`); the fallback dictionary starts empty; the remote store
holds whatever `store` it held before construction. -/
def initState (reachable : Bool) (store : List (String × RedisEntry))
    (ttl : Nat) : CacheState :=
  { redis_active := reachable
    redis_store := store
    fallback_cache := []
    cache_ttl := ttl }

/-- One facade call, with its per-call parameters (instant, injected faults,
arguments) — used to speak about the whole lifetime of a facade instance. -/
inductive CacheOp where
  | set (now : Nat) (fault : Option String) (serFault : Bool)
        (key : String) (data : Json)
  | get (now : Nat) (fault : Option String) (deserFault : Bool) (key : String)
  | del (now : Nat) (fault : Option String) (key : String)
  | clear (now : Nat) (fault : Option String)
  | stats (now : Nat) (fault : Option String) (info : RedisInfo)
  | health (fault : Option String) (elapsedMs : Nat)

/-- The state after one facade call (`stats` and `health` do not mutate). -/
def applyOp (st : CacheState) : CacheOp → CacheState
  | .set now fault serFault key data =>
      (set_cache st now fault serFault key data).2
  | .get now fault deserFault key => (get_cache st now fault deserFault key).2
  | .del now fault key => (delete_cache st now fault key).2
  | .clear now fault => (clear_cache st now fault).2
  | .stats _ _ _ => st
  | .health _ _ => st

/-- The state after a sequence of facade calls. -/
def applyOps (st : CacheState) (ops : List CacheOp) : CacheState :=
  ops.foldl applyOp st

/-! ### Association-list lemmas -/

theorem assocGet_assocSet_self {α : Type} (m : List (String × α))
    (k : String) (v : α) : assocGet (assocSet m k v) k = some v := by
  induction m with
  | nil => simp [assocSet, assocGet]
  | cons p rest ih =>
      by_cases h : p.1 = k
      · simp [assocSet, h, assocGet]
      · simp only [assocSet, h, if_false]
        simpa [assocGet, h] using ih

theorem assocGet_assocSet_ne {α : Type} (m : List (String × α))
    (k k' : String) (v : α) (h : k' ≠ k) :
    assocGet (assocSet m k v) k' = assocGet m k' := by
  have hne : k ≠ k' := Ne.symm h
  induction m with
  | nil => simp [assocSet, assocGet, hne]
  | cons p rest ih =>
      obtain ⟨a, b⟩ := p
      by_cases hp : a = k
      · subst hp
        simp [assocSet, assocGet, hne]
      · simp only [assocSet, hp, if_false, assocGet, ih]

theorem assocGet_filter_keep {α : Type} (m : List (String × α))
    (p : String × α → Bool) (k : String)
    (h : ∀ q ∈ m, q.1 = k → p q = true) :
    assocGet (m.filter p) k = assocGet m k := by
  induction m with
  | nil => simp
  | cons q rest ih =>
      have hrest : ∀ r ∈ rest, r.1 = k → p r = true := by
        intro r hr hk
        exact h r (List.mem_cons_of_mem q hr) hk
      by_cases hq : q.1 = k
      · have hpq : p q = true := h q (List.mem_cons_self q rest) hq
        simp [List.filter_cons, hpq, assocGet, hq]
      · cases hpq : p q with
        | true =>
            simp only [List.filter_cons, hpq, if_true]
            simp only [assocGet, hq, if_false, ih hrest]
        | false =>
            simp only [List.filter_cons, hpq, Bool.false_eq_true, if_false]
            rw [ih hrest]
            simp [assocGet, hq]

theorem assocGet_filter_drop {α : Type} (m : List (String × α))
    (p : String × α → Bool) (k : String)
    (h : ∀ q ∈ m, q.1 = k → p q = false) :
    assocGet (m.filter p) k = none := by
  induction m with
  | nil => simp [assocGet]
  | cons q rest ih =>
      have hrest : ∀ r ∈ rest, r.1 = k → p r = false := by
        intro r hr hk
        exact h r (List.mem_cons_of_mem q hr) hk
      by_cases hq : q.1 = k
      · have hpq : p q = false := h q (List.mem_cons_self q rest) hq
        simp only [List.filter_cons, hpq, Bool.false_eq_true, if_false]
        exact ih hrest
      · cases hpq : p q with
        | true =>
            simp only [List.filter_cons, hpq, if_true]
            simp only [assocGet, hq, if_false]
            exact ih hrest
        | false =>
            simp only [List.filter_cons, hpq, Bool.false_eq_true, if_false]
            exact ih hrest

theorem assocGet_assocErase_self {α : Type} (m : List (String × α))
    (k : String) : assocGet (assocErase m k) k = none := by
  refine assocGet_filter_drop m _ k ?_
  intro q _ hk
  simp [hk]

theorem assocGet_assocErase_ne {α : Type} (m : List (String × α))
    (k k' : String) (h : k' ≠ k) :
    assocGet (assocErase m k) k' = assocGet m k' := by
  refine assocGet_filter_keep m _ k' ?_
  intro q _ hk
  simp [hk, h]

theorem mem_map_fst_of_assocGet {α : Type} (m : List (String × α))
    (k : String) (v : α) (h : assocGet m k = some v) :
    k ∈ m.map Prod.fst := by
  induction m with
  | nil => simp [assocGet] at h
  | cons q rest ih =>
      by_cases hq : q.1 = k
      · simp [hq]
      · simp only [assocGet, hq, if_false] at h
        simp [ih h]

/-! ### Remote-store lemmas -/

theorem redisGet_isSome_mem_redisKeys (store : List (String × RedisEntry))
    (now : Nat) (n : String) (hns : matchesNs n = true)
    (hlive : (redisGet store now n).isSome = true) :
    n ∈ redisKeys store now := by
  unfold redisGet at hlive
  rcases hget : assocGet store n with _ | e
  · rw [hget] at hlive
    simp at hlive
  · refine List.mem_filter.mpr ⟨List.mem_dedup.mpr ?_, ?_⟩
    · exact mem_map_fst_of_assocGet store n e hget
    · simp only [hns, Bool.true_and]
      unfold redisGet
      rw [hget] at hlive ⊢
      exact hlive

theorem mem_redisKeys_live (store : List (String × RedisEntry)) (now : Nat)
    (n : String) (h : n ∈ redisKeys store now) :
    (redisGet store now n).isSome = true := by
  have hmem := (List.mem_filter.mp h).2
  simp only [Bool.and_eq_true] at hmem
  exact hmem.2

/-- After a successful `clear_cache` on the remote backend at instant `now₁`,
no namespaced key is live at any later instant `now₂`. -/
theorem redisGet_after_clear (store : List (String × RedisEntry))
    (now₁ now₂ : Nat) (hle : now₁ ≤ now₂) (n : String)
    (hns : matchesNs n = true) :
    redisGet (store.filter
      (fun p => ¬ (redisKeys store now₁).contains p.1)) now₂ n = none := by
  by_cases hmem : n ∈ redisKeys store now₁
  · have hdrop : assocGet (store.filter
        (fun p => ¬ (redisKeys store now₁).contains p.1)) n = none := by
      refine assocGet_filter_drop store _ n ?_
      intro q _ hk
      simp only [hk, decide_eq_false_iff_not, Decidable.not_not]
      simp only [List.elem_iff]
      exact hmem
    unfold redisGet
    rw [hdrop]
  · have hkeep : assocGet (store.filter
        (fun p => ¬ (redisKeys store now₁).contains p.1)) n =
        assocGet store n := by
      refine assocGet_filter_keep store _ n ?_
      intro q _ hk
      have : (redisKeys store now₁).contains n = false := by
        rcases hc : (redisKeys store now₁).contains n with _ | _
        · rfl
        · exact absurd (List.elem_iff.mp hc) hmem
      simp only [hk, this, Bool.false_eq_true, decide_eq_true_eq]
      simp
    unfold redisGet
    rw [hkeep]
    rcases hget : assocGet store n with _ | e
    · rfl
    · by_cases hexp : now₂ < e.expireAt
      · exfalso
        apply hmem
        refine redisGet_isSome_mem_redisKeys store now₁ n hns ?_
        unfold redisGet
        rw [hget]
        simp [Nat.lt_of_le_of_lt hle hexp]
      · simp [hexp]

/-! ### Namespace-key lemmas -/

theorem list_isPrefixOf_append {α : Type} [BEq α] [LawfulBEq α]
    (l t : List α) : l.isPrefixOf (l ++ t) = true := by
  induction l with
  | nil => simp [List.isPrefixOf]
  | cons a rest ih => simp [List.isPrefixOf, ih]

theorem matchesNs_nsKey (k : String) : matchesNs (nsKey k) = true := by
  show ("stockxpert:".data.isPrefixOf ("stockxpert:" ++ k).data) = true
  rw [String.data_append]
  exact list_isPrefixOf_append _ _

theorem mem_redisKeys_matchesNs (store : List (String × RedisEntry))
    (now : Nat) (n : String) (h : n ∈ redisKeys store now) :
    matchesNs n = true := by
  have hmem := (List.mem_filter.mp h).2
  simp only [Bool.and_eq_true] at hmem
  exact hmem.1

/-- If no namespaced key is live at `now₁`, then no namespaced key is live at
any later instant either (entries only expire). -/
theorem redisGet_none_of_keys_empty (store : List (String × RedisEntry))
    (now₁ now₂ : Nat) (hle : now₁ ≤ now₂) (n : String)
    (hns : matchesNs n = true) (hempty : redisKeys store now₁ = []) :
    redisGet store now₂ n = none := by
  rcases ha : assocGet store n with _ | e
  · unfold redisGet
    rw [ha]
  · by_cases hexp : now₂ < e.expireAt
    · exfalso
      have hmem : n ∈ redisKeys store now₁ := by
        refine redisGet_isSome_mem_redisKeys store now₁ n hns ?_
        unfold redisGet
        rw [ha]
        simp [Nat.lt_of_le_of_lt hle hexp]
      rw [hempty] at hmem
      exact List.not_mem_nil n hmem
    · unfold redisGet
      rw [ha]
      simp [hexp]

theorem nsKey_ne (k : String) : nsKey k ≠ k := by
  intro h
  have hlen : (nsKey k).length = k.length := congrArg String.length h
  rw [nsKey, String.length_append] at hlen
  have hns : ("stockxpert:" : String).length = 11 := rfl
  rw [hns] at hlen
  omega

/-! ### Backend selection is never re-evaluated -/

theorem set_cache_redis_active (st : CacheState) (now : Nat)
    (fault : Option String) (serFault : Bool) (key : String) (data : Json) :
    (set_cache st now fault serFault key data).2.redis_active =
      st.redis_active := by
  rcases st with ⟨active, store, fb, ttl⟩
  cases active <;> cases fault <;> rfl

theorem get_cache_redis_active (st : CacheState) (now : Nat)
    (fault : Option String) (deserFault : Bool) (key : String) :
    (get_cache st now fault deserFault key).2.redis_active =
      st.redis_active := by
  rcases st with ⟨active, store, fb, ttl⟩
  cases active with
  | false =>
      rcases h : assocGet fb key with _ | entry
      · simp [get_cache, get_cache_run, h]
      · by_cases hage : (now : Int) - entry.timestamp < ttl <;>
          simp [get_cache, get_cache_run, h, hage]
  | true =>
      cases fault with
      | none =>
          rcases h : redisGet store now (nsKey key) with _ | p <;>
            simp [get_cache, get_cache_run, h]
      | some e => rfl

theorem delete_cache_redis_active (st : CacheState) (now : Nat)
    (fault : Option String) (key : String) :
    (delete_cache st now fault key).2.redis_active = st.redis_active := by
  rcases st with ⟨active, store, fb, ttl⟩
  cases active with
  | false =>
      rcases h : assocGet fb key with _ | entry <;>
        simp [delete_cache, delete_cache_run, h]
  | true => cases fault <;> rfl

theorem clear_cache_redis_active (st : CacheState) (now : Nat)
    (fault : Option String) :
    (clear_cache st now fault).2.redis_active = st.redis_active := by
  rcases st with ⟨active, store, fb, ttl⟩
  cases active with
  | false => rfl
  | true =>
      cases fault with
      | none =>
          by_cases h : (redisKeys store now).isEmpty <;>
            simp [clear_cache, clear_cache_run, h]
      | some e => rfl

theorem applyOp_redis_active (st : CacheState) (op : CacheOp) :
    (applyOp st op).redis_active = st.redis_active := by
  cases op with
  | set now fault serFault key data =>
      exact set_cache_redis_active st now fault serFault key data
  | get now fault deserFault key =>
      exact get_cache_redis_active st now fault deserFault key
  | del now fault key => exact delete_cache_redis_active st now fault key
  | clear now fault => exact clear_cache_redis_active st now fault
  | stats now fault info => rfl
  | health fault elapsedMs => rfl

theorem applyOps_redis_active (st : CacheState) (ops : List CacheOp) :
    (applyOps st ops).redis_active = st.redis_active := by
  induction ops generalizing st with
  | nil => rfl
  | cons op rest ih =>
      show (applyOps (applyOp st op) rest).redis_active = st.redis_active
      rw [ih (applyOp st op), applyOp_redis_active]

/-! ### Claims -/

/-- C1: for every key `k` and serializable value `v` (so serialization and
deserialization succeed), `set_cache k v` immediately followed by
`get_cache k` — same instant, healthy network, positive TTL — returns
exactly `v`, on the remote backend and on the local fallback alike. -/
theorem C1_set_then_get_returns_value
    (store : List (String × RedisEntry)) (fb : List (String × FallbackEntry))
    (ttl now : Nat) (k : String) (v : Json) (httl : 0 < ttl) :
    (set_cache ⟨true, store, fb, ttl⟩ now none false k v).1 = true ∧
    (get_cache (set_cache ⟨true, store, fb, ttl⟩ now none false k v).2
      now none false k).1 = some v ∧
    (set_cache ⟨false, store, fb, ttl⟩ now none false k v).1 = true ∧
    (get_cache (set_cache ⟨false, store, fb, ttl⟩ now none false k v).2
      now none false k).1 = some v := by
  refine ⟨rfl, ?_, rfl, ?_⟩
  · simp only [set_cache, set_cache_run, if_true, serialize_data,
      Bool.false_eq_true, if_false, get_cache, get_cache_run, redisGet,
      assocGet_assocSet_self]
    have hlt : now < now + ttl := Nat.lt_add_of_pos_right httl
    simp [hlt, deserialize_data]
  · have h0 : (0 : Int) < (ttl : Int) := by exact_mod_cast httl
    simp [set_cache, set_cache_run, get_cache, get_cache_run,
      assocGet_assocSet_self, h0]

/-- C1 witness: the concrete scenario of the spec — on the fallback backend,
`set("a", \x7b"x": 1\x7d)` then `get("a")` returns the stored object. -/
theorem C1_set_then_get_returns_value_witness :
    (get_cache (set_cache ⟨false, [], [], 3600⟩ 0 none false "a"
        (Json.obj [("x", Json.num 1)])).2
      0 none false "a").1 = some (Json.obj [("x", Json.num 1)]) :=
  (C1_set_then_get_returns_value [] [] 3600 0 "a"
    (Json.obj [("x", Json.num 1)]) (by decide)).2.2.2

/-- C2: no operation propagates an exception.  When the remote backend is
active and the network call raises (`fault = some e`), every facade
operation converts the exception into its benign value: `false` for
`set_cache`/`delete_cache`/`clear_cache`, `none` for `get_cache`, an
error-carrying dictionary for `get_cache_stats` and `health_check` — never a
raised error.  A serialization fault still yields a normal `true` from
`set_cache` (an empty payload is stored), a deserialization fault still
yields a normal `none`/empty-object result from `get_cache`, and on the
fallback backend a network fault is irrelevant (`clear_cache` still returns
`true`). -/
theorem C2_no_exception_escapes
    (store : List (String × RedisEntry)) (fb : List (String × FallbackEntry))
    (ttl now elapsedMs : Nat) (k : String) (v : Json) (e : String)
    (serFault deserFault : Bool) (info : RedisInfo) :
    set_cache ⟨true, store, fb, ttl⟩ now (some e) serFault k v =
      (false, ⟨true, store, fb, ttl⟩) ∧
    get_cache ⟨true, store, fb, ttl⟩ now (some e) deserFault k =
      (none, ⟨true, store, fb, ttl⟩) ∧
    delete_cache ⟨true, store, fb, ttl⟩ now (some e) k =
      (false, ⟨true, store, fb, ttl⟩) ∧
    clear_cache ⟨true, store, fb, ttl⟩ now (some e) =
      (false, ⟨true, store, fb, ttl⟩) ∧
    get_cache_stats ⟨true, store, fb, ttl⟩ now (some e) info =
      [("error", Json.str e)] ∧
    health_check ⟨true, store, fb, ttl⟩ (some e) elapsedMs =
      [("status", Json.str "unhealthy"), ("backend", Json.str "redis"),
       ("connected", Json.bool false), ("error", Json.str e)] ∧
    (set_cache ⟨true, store, fb, ttl⟩ now none true k v).1 = true ∧
    (get_cache ⟨true, store, fb, ttl⟩ now none true k).1 =
      (redisGet store now (nsKey k)).map (fun _ => Json.obj []) ∧
    clear_cache ⟨false, store, fb, ttl⟩ now (some e) =
      (true, ⟨false, store, [], ttl⟩) := by
  refine ⟨rfl, rfl, rfl, rfl, rfl, rfl, rfl, ?_, rfl⟩
  simp only [get_cache, get_cache_run, if_true]
  rcases h : redisGet store now (nsKey k) with _ | payload <;>
    simp [h, deserialize_data]

/-- C3: fallback-backend read semantics of `get_cache`.  A present entry
younger than the TTL is returned as stored; a present entry whose age is not
strictly below the TTL is deleted from the mapping and `none` is returned; a
missing key returns `none` and leaves the state untouched. -/
theorem C3_fallback_get_ttl_semantics
    (store : List (String × RedisEntry)) (fb : List (String × FallbackEntry))
    (ttl now : Nat) (k : String) (fault : Option String) (deserFault : Bool) :
    (∀ ts v, assocGet fb k = some ⟨ts, v⟩ →
      ((now : Int) - ts < ttl →
        get_cache ⟨false, store, fb, ttl⟩ now fault deserFault k =
          (some v, ⟨false, store, fb, ttl⟩)) ∧
      (¬ ((now : Int) - ts < ttl) →
        get_cache ⟨false, store, fb, ttl⟩ now fault deserFault k =
          (none, ⟨false, store, assocErase fb k, ttl⟩))) ∧
    (assocGet fb k = none →
      get_cache ⟨false, store, fb, ttl⟩ now fault deserFault k =
        (none, ⟨false, store, fb, ttl⟩)) := by
  constructor
  · intro ts v hget
    constructor
    · intro hage
      simp [get_cache, get_cache_run, hget, hage]
    · intro hage
      simp [get_cache, get_cache_run, hget, hage]
  · intro hget
    simp [get_cache, get_cache_run, hget]

/-- C3 witness: with TTL 10 at instant 12, an entry stored at instant 5 is
still returned; an entry stored at instant 0 is purged and `none` returned;
an absent key returns `none`. -/
theorem C3_fallback_get_ttl_semantics_witness :
    (get_cache ⟨false, [], [("live", ⟨5, Json.num 1⟩), ("old", ⟨0, Json.num 2⟩)],
        10⟩ 12 none false "live") =
      (some (Json.num 1),
        ⟨false, [], [("live", ⟨5, Json.num 1⟩), ("old", ⟨0, Json.num 2⟩)], 10⟩) ∧
    (get_cache ⟨false, [], [("live", ⟨5, Json.num 1⟩), ("old", ⟨0, Json.num 2⟩)],
        10⟩ 12 none false "old") =
      (none,
        ⟨false, [],
          assocErase [("live", ⟨5, Json.num 1⟩), ("old", ⟨0, Json.num 2⟩)] "old",
          10⟩) ∧
    (get_cache ⟨false, [], [("live", ⟨5, Json.num 1⟩), ("old", ⟨0, Json.num 2⟩)],
        10⟩ 12 none false "nope") =
      (none,
        ⟨false, [], [("live", ⟨5, Json.num 1⟩), ("old", ⟨0, Json.num 2⟩)], 10⟩) :=
  ⟨((C3_fallback_get_ttl_semantics []
      [("live", ⟨5, Json.num 1⟩), ("old", ⟨0, Json.num 2⟩)] 10 12 "live"
      none false).1 5 (Json.num 1) rfl).1 (by decide),
   ((C3_fallback_get_ttl_semantics []
      [("live", ⟨5, Json.num 1⟩), ("old", ⟨0, Json.num 2⟩)] 10 12 "old"
      none false).1 0 (Json.num 2) rfl).2 (by decide),
   (C3_fallback_get_ttl_semantics []
      [("live", ⟨5, Json.num 1⟩), ("old", ⟨0, Json.num 2⟩)] 10 12 "nope"
      none false).2 rfl⟩

/-- C4: `health_check` reports `"healthy"` exactly when the remote backend is
active and the `ping` probe succeeds; it reports `"degraded"` whenever the
facade runs on the local fallback (for any injected fault — no probe is
issued there); and it reports `"unhealthy"` with the captured error when the
probe raises or times out. -/
theorem C4_health_check_status
    (store : List (String × RedisEntry)) (fb : List (String × FallbackEntry))
    (ttl elapsedMs : Nat) (e : String) (fault : Option String) :
    health_check ⟨true, store, fb, ttl⟩ none elapsedMs =
      [("status", Json.str "healthy"), ("backend", Json.str "redis"),
       ("response_time_ms", Json.num elapsedMs),
       ("connected", Json.bool true)] ∧
    health_check ⟨false, store, fb, ttl⟩ fault elapsedMs =
      [("status", Json.str "degraded"), ("backend", Json.str "in-memory"),
       ("response_time_ms", Json.num 0), ("connected", Json.bool false),
       ("message", Json.str "Using fallback in-memory cache")] ∧
    health_check ⟨true, store, fb, ttl⟩ (some e) elapsedMs =
      [("status", Json.str "unhealthy"), ("backend", Json.str "redis"),
       ("connected", Json.bool false), ("error", Json.str e)] ∧
    (∀ st : CacheState, ∀ f : Option String,
      assocGet (health_check st f elapsedMs) "status" =
          some (Json.str "healthy") ↔
        (st.redis_active = true ∧ f = none)) := by
  refine ⟨rfl, rfl, rfl, ?_⟩
  intro st f
  rcases st with ⟨active, store₂, fb₂, ttl₂⟩
  cases active <;> cases f <;>
    simp [health_check, health_check_run, assocGet]

/-- C5: the `backend` field of `get_cache_stats` is decided once by remote
reachability at construction and stays fixed across any sequence of facade
calls; on the local fallback the statistics report the key count of the
mapping with `hits` and `misses` fixed at zero. -/
theorem C5_stats_backend_fixed
    (reachable : Bool) (store : List (String × RedisEntry)) (ttl now : Nat)
    (ops : List CacheOp) (info : RedisInfo) :
    (applyOps (initState reachable store ttl) ops).redis_active =
      reachable ∧
    assocGet (get_cache_stats (applyOps (initState reachable store ttl) ops)
        now none info) "backend" =
      some (Json.str (if reachable then "redis" else "in-memory")) ∧
    (reachable = false →
      get_cache_stats (applyOps (initState reachable store ttl) ops)
          now none info =
        [("backend", Json.str "in-memory"), ("connected", Json.bool false),
         ("total_keys", Json.num
           (applyOps (initState reachable store ttl) ops).fallback_cache.length),
         ("memory_usage", Json.str "Unknown"),
         ("hits", Json.num 0), ("misses", Json.num 0)]) := by
  have hact : (applyOps (initState reachable store ttl) ops).redis_active =
      reachable := applyOps_redis_active _ ops
  refine ⟨hact, ?_, ?_⟩
  · cases reachable <;>
      simp [get_cache_stats, get_cache_stats_run, hact, assocGet]
  · intro hfalse
    subst hfalse
    simp [get_cache_stats, get_cache_stats_run, hact]

/-- C5 witness: a facade constructed with the remote store unreachable, after
one successful `set_cache`, reports the in-memory backend, one key, and zero
hit and miss counters. -/
theorem C5_stats_backend_fixed_witness :
    get_cache_stats
        (applyOps (initState false [] 60) [CacheOp.set 0 none false "a"
          (Json.num 7)]) 1 none ⟨none, none, none⟩ =
      [("backend", Json.str "in-memory"), ("connected", Json.bool false),
       ("total_keys", Json.num 1), ("memory_usage", Json.str "Unknown"),
       ("hits", Json.num 0), ("misses", Json.num 0)] :=
  (C5_stats_backend_fixed false [] 60 1
    [CacheOp.set 0 none false "a" (Json.num 7)] ⟨none, none, none⟩).2.2 rfl

/-- C6 counterexample: the per-call connect and read timeouts are the literal
keyword arguments `socket_connect_timeout=5` and `socket_timeout=5`; as a
function of the process environment they are constant, so no environment
setting can override them (shown also at an explicit environment that tries
to). -/
theorem C6_timeouts_not_overridable :
    (initConfig [("REDIS_SOCKET_TIMEOUT", "99"), ("SOCKET_TIMEOUT", "99"),
        ("REDIS_SOCKET_CONNECT_TIMEOUT", "99")]).socket_connect_timeout = 5 ∧
    (initConfig [("REDIS_SOCKET_TIMEOUT", "99"), ("SOCKET_TIMEOUT", "99"),
        ("REDIS_SOCKET_CONNECT_TIMEOUT", "99")]).socket_timeout = 5 ∧
    (fun env => ((initConfig env).socket_connect_timeout,
        (initConfig env).socket_timeout)) =
      (fun _ => ((5 : Int), (5 : Int))) :=
  ⟨rfl, rfl, funext fun _ => rfl⟩

/-- C6 amended: the remote store address (`REDIS_URL`), the connection pool
size (`REDIS_MAX_CONNECTIONS`) and the default entry TTL
(`CACHE_TTL_SECONDS`) are read from the process environment with the
documented defaults, but the per-call connect and read timeouts are fixed at
5 seconds and are not overridable via the environment. -/
theorem C6_env_overrides
    (env : List (String × String)) (url ttl pool : String) :
    (initConfig env).socket_connect_timeout = 5 ∧
    (initConfig env).socket_timeout = 5 ∧
    (initConfig (("REDIS_URL", url) :: env)).redis_url = url ∧
    (initConfig (("CACHE_TTL_SECONDS", ttl) :: env)).cache_ttl = ttl.toInt? ∧
    (initConfig (("REDIS_MAX_CONNECTIONS", pool) :: env)).max_connections =
      pool.toInt? ∧
    (initConfig []).redis_url = "redis://localhost:6379/0" ∧
    (initConfig []).cache_ttl = some 3600 ∧
    (initConfig []).max_connections = some 10 := by
  refine ⟨rfl, rfl, ?_, ?_, ?_, rfl, rfl, rfl⟩ <;>
    simp [initConfig, envInt, assocGet]

/-- C7: every key sent to the remote store is the logical key under the fixed
`"stockxpert:"` namespace, never the bare key: the namespaced key differs
from the bare one and matches the namespace pattern; `set_cache` writes (with
set-with-expiry) exactly at the namespaced key and touches no other;
`get_cache` reads exactly the entry at the namespaced key without writing;
`delete_cache` removes exactly the namespaced key; and the
enumerate-then-delete of `clear_cache` touches only keys under the
namespace. -/
theorem C7_remote_keys_namespaced
    (store : List (String × RedisEntry)) (fb : List (String × FallbackEntry))
    (ttl now : Nat) (k : String) (v : Json) (serFault deserFault : Bool) :
    nsKey k ≠ k ∧
    matchesNs (nsKey k) = true ∧
    (set_cache ⟨true, store, fb, ttl⟩ now none serFault k v).2.redis_store =
      assocSet store (nsKey k) ⟨serialize_data serFault v, now + ttl⟩ ∧
    (∀ n, n ≠ nsKey k →
      assocGet
        ((set_cache ⟨true, store, fb, ttl⟩ now none serFault k v).2.redis_store)
        n = assocGet store n) ∧
    (get_cache ⟨true, store, fb, ttl⟩ now none deserFault k).1 =
      (redisGet store now (nsKey k)).map (deserialize_data deserFault) ∧
    (get_cache ⟨true, store, fb, ttl⟩ now none deserFault k).2 =
      ⟨true, store, fb, ttl⟩ ∧
    assocGet ((delete_cache ⟨true, store, fb, ttl⟩ now none k).2.redis_store)
      (nsKey k) = none ∧
    (∀ n, n ≠ nsKey k →
      assocGet ((delete_cache ⟨true, store, fb, ttl⟩ now none k).2.redis_store)
        n = assocGet store n) ∧
    (∀ n, matchesNs n = false →
      assocGet ((clear_cache ⟨true, store, fb, ttl⟩ now none).2.redis_store)
        n = assocGet store n) := by
  refine ⟨nsKey_ne k, matchesNs_nsKey k, rfl, ?_, ?_, ?_, ?_, ?_, ?_⟩
  · intro n hn
    exact assocGet_assocSet_ne store (nsKey k) n _ hn
  · rcases h : redisGet store now (nsKey k) with _ | p <;>
      simp [get_cache, get_cache_run, h]
  · rcases h : redisGet store now (nsKey k) with _ | p <;>
      simp [get_cache, get_cache_run, h]
  · show assocGet (store.filter _) (nsKey k) = none
    refine assocGet_filter_drop store _ (nsKey k) ?_
    intro q _ hq
    simp [hq]
  · intro n hn
    show assocGet (store.filter _) n = assocGet store n
    refine assocGet_filter_keep store _ n ?_
    intro q _ hq
    simp only [hq, decide_eq_true_eq]
    simp
    exact hn
  · intro n hns
    simp only [clear_cache, clear_cache_run, if_true]
    by_cases hkeys : (redisKeys store now).isEmpty
    · simp [hkeys]
    · simp only [hkeys, Bool.false_eq_true, if_false, redisDel]
      refine assocGet_filter_keep store _ n ?_
      intro q _ hq
      have hnm : n ∉ redisKeys store now := by
        intro hmem
        have := mem_redisKeys_matchesNs store now n hmem
        rw [this] at hns
        exact Bool.noConfusion hns
      simp [hq, hnm]

/-- C7 witness: deleting key `"a"` removes exactly the wire key
`"stockxpert:a"`, leaving an unrelated wire key `"other"` untouched, and
`clear_cache` also leaves `"other"` untouched. -/
theorem C7_remote_keys_namespaced_witness :
    assocGet ((delete_cache
        ⟨true, [("stockxpert:a", ⟨Json.num 1, 10⟩), ("other", ⟨Json.num 2, 10⟩)],
          [], 5⟩ 0 none "a").2.redis_store) (nsKey "a") = none ∧
    assocGet ((delete_cache
        ⟨true, [("stockxpert:a", ⟨Json.num 1, 10⟩), ("other", ⟨Json.num 2, 10⟩)],
          [], 5⟩ 0 none "a").2.redis_store) "other" =
      assocGet [("stockxpert:a", ⟨Json.num 1, 10⟩), ("other", ⟨Json.num 2, 10⟩)]
        "other" ∧
    assocGet ((clear_cache
        ⟨true, [("stockxpert:a", ⟨Json.num 1, 10⟩), ("other", ⟨Json.num 2, 10⟩)],
          [], 5⟩ 0 none).2.redis_store) "other" =
      assocGet [("stockxpert:a", ⟨Json.num 1, 10⟩), ("other", ⟨Json.num 2, 10⟩)]
        "other" :=
  ⟨(C7_remote_keys_namespaced _ [] 5 0 "a" Json.null false false).2.2.2.2.2.2.1,
   (C7_remote_keys_namespaced _ [] 5 0 "a" Json.null false
      false).2.2.2.2.2.2.2.1 "other" (by decide),
   (C7_remote_keys_namespaced _ [] 5 0 "a" Json.null false
      false).2.2.2.2.2.2.2.2 "other" (by decide)⟩

/-- C8: `delete_cache` removes the entry for `k` from whichever backend is
active and returns `true` exactly when an entry existed (on the remote
backend: a live, unexpired entry at the namespaced key; on the fallback: a
mapping entry for the bare key); afterwards a `get_cache` on that key finds
nothing. -/
theorem C8_delete_reports_removal
    (store : List (String × RedisEntry)) (fb : List (String × FallbackEntry))
    (ttl now : Nat) (k : String) :
    (delete_cache ⟨true, store, fb, ttl⟩ now none k).1 =
      (redisGet store now (nsKey k)).isSome ∧
    assocGet ((delete_cache ⟨true, store, fb, ttl⟩ now none k).2.redis_store)
      (nsKey k) = none ∧
    (get_cache (delete_cache ⟨true, store, fb, ttl⟩ now none k).2
      now none false k).1 = none ∧
    (delete_cache ⟨false, store, fb, ttl⟩ now none k).1 =
      (assocGet fb k).isSome ∧
    assocGet
      ((delete_cache ⟨false, store, fb, ttl⟩ now none k).2.fallback_cache)
      k = none ∧
    (get_cache (delete_cache ⟨false, store, fb, ttl⟩ now none k).2
      now none false k).1 = none := by
  have hdrop : assocGet
      ((delete_cache ⟨true, store, fb, ttl⟩ now none k).2.redis_store)
      (nsKey k) = none := by
    show assocGet (store.filter _) (nsKey k) = none
    refine assocGet_filter_drop store _ (nsKey k) ?_
    intro q _ hq
    simp [hq]
  refine ⟨?_, hdrop, ?_, ?_, ?_, ?_⟩
  · rcases h : redisGet store now (nsKey k) with _ | p <;>
      simp [delete_cache, delete_cache_run, redisDel, h]
  · have : redisGet
        ((delete_cache ⟨true, store, fb, ttl⟩ now none k).2.redis_store)
        now (nsKey k) = none := by
      unfold redisGet
      rw [hdrop]
    have hact : (delete_cache ⟨true, store, fb, ttl⟩ now none k).2.redis_active
        = true := rfl
    simp [get_cache, get_cache_run, hact, this]
  · rcases h : assocGet fb k with _ | entry <;>
      simp [delete_cache, delete_cache_run, h]
  · rcases h : assocGet fb k with _ | entry <;>
      simp [delete_cache, delete_cache_run, h, assocGet_assocErase_self]
  · rcases h : assocGet fb k with _ | entry
    · simp [get_cache, get_cache_run, delete_cache, delete_cache_run, h]
    · simp [get_cache, get_cache_run, delete_cache, delete_cache_run, h,
        assocGet_assocErase_self]

theorem get_cache_fst_none_of_redisGet_none
    (store : List (String × RedisEntry)) (fb : List (String × FallbackEntry))
    (ttl now : Nat) (deserFault : Bool) (k : String)
    (h : redisGet store now (nsKey k) = none) :
    (get_cache ⟨true, store, fb, ttl⟩ now none deserFault k).1 = none := by
  simp [get_cache, get_cache_run, h]

/-- C9: `clear_cache` returns `true` even when nothing existed to clear, and
after a successful clear a `get_cache` on any key — at the same or any later
instant — returns `none`, on the remote backend and on the local fallback
alike. -/
theorem C9_clear_then_get_absent
    (store : List (String × RedisEntry)) (fb : List (String × FallbackEntry))
    (ttl now₁ now₂ : Nat) (k : String) (deserFault : Bool)
    (h : now₁ ≤ now₂) :
    (clear_cache ⟨true, store, fb, ttl⟩ now₁ none).1 = true ∧
    (get_cache (clear_cache ⟨true, store, fb, ttl⟩ now₁ none).2
      now₂ none deserFault k).1 = none ∧
    clear_cache ⟨false, store, fb, ttl⟩ now₁ none =
      (true, ⟨false, store, [], ttl⟩) ∧
    (get_cache ⟨false, store, [], ttl⟩ now₂ none deserFault k).1 = none := by
  refine ⟨?_, ?_, rfl, ?_⟩
  · by_cases hkeys : (redisKeys store now₁).isEmpty
    · simp [clear_cache, clear_cache_run, hkeys]
    · have hfull : (redisKeys store now₁).filter
          (fun n => (redisGet store now₁ n).isSome) = redisKeys store now₁ :=
        List.filter_eq_self.mpr (fun n hn => mem_redisKeys_live store now₁ n hn)
      have hne : redisKeys store now₁ ≠ [] := by
        intro hnil
        rw [hnil] at hkeys
        exact hkeys rfl
      simp only [clear_cache, clear_cache_run, if_true, hkeys,
        Bool.false_eq_true, if_false, redisDel, hfull]
      simp [List.length_eq_zero, hne]
  · by_cases hkeys : (redisKeys store now₁).isEmpty
    · have hst : (clear_cache ⟨true, store, fb, ttl⟩ now₁ none).2 =
          ⟨true, store, fb, ttl⟩ := by
        simp [clear_cache, clear_cache_run, hkeys]
      rw [hst]
      have hnone : redisGet store now₂ (nsKey k) = none :=
        redisGet_none_of_keys_empty store now₁ now₂ h (nsKey k)
          (matchesNs_nsKey k) (List.isEmpty_iff.mp hkeys)
      exact get_cache_fst_none_of_redisGet_none store fb ttl now₂
        deserFault k hnone
    · have hst : (clear_cache ⟨true, store, fb, ttl⟩ now₁ none).2 =
          ⟨true, store.filter
            (fun p => ¬ (redisKeys store now₁).contains p.1), fb, ttl⟩ := by
        simp [clear_cache, clear_cache_run, hkeys, redisDel]
      rw [hst]
      have hnone := redisGet_after_clear store now₁ now₂ h (nsKey k)
        (matchesNs_nsKey k)
      exact get_cache_fst_none_of_redisGet_none _ fb ttl now₂
        deserFault k hnone
  · simp [get_cache, get_cache_run, assocGet]

/-- C9 witness: clearing a remote store holding one live namespaced entry
succeeds and a subsequent read of that key one instant later is absent; the
fallback counterpart also succeeds from the cleared state. -/
theorem C9_clear_then_get_absent_witness :
    (clear_cache ⟨true, [("stockxpert:a", ⟨Json.num 1, 10⟩)], [], 5⟩ 0 none).1
      = true ∧
    (get_cache (clear_cache ⟨true, [("stockxpert:a", ⟨Json.num 1, 10⟩)], [], 5⟩
        0 none).2 1 none false "a").1 = none :=
  ⟨(C9_clear_then_get_absent [("stockxpert:a", ⟨Json.num 1, 10⟩)] [] 5 0 1 "a"
      false (by decide)).1,
   (C9_clear_then_get_absent [("stockxpert:a", ⟨Json.num 1, 10⟩)] [] 5 0 1 "a"
      false (by decide)).2.1⟩

/-- C10: on the local fallback, `set_cache` stores the value object itself —
unserialized, for any serialization-fault condition and any network-fault
condition — and `get_cache` returns that very object for any
deserialization-fault condition; the degradation to an empty payload on a
serialization fault and to an empty object on a deserialization fault happen
only on the remote path. -/
theorem C10_fallback_stores_object_directly
    (store : List (String × RedisEntry)) (fb : List (String × FallbackEntry))
    (ttl now : Nat) (k : String) (v w p : Json) (ts : Nat)
    (fault : Option String) (serFault deserFault : Bool) :
    set_cache ⟨false, store, fb, ttl⟩ now fault serFault k v =
      (true, ⟨false, store, assocSet fb k ⟨now, v⟩, ttl⟩) ∧
    (assocGet fb k = some ⟨ts, w⟩ → (now : Int) - ts < ttl →
      get_cache ⟨false, store, fb, ttl⟩ now fault deserFault k =
        (some w, ⟨false, store, fb, ttl⟩)) ∧
    (set_cache ⟨true, store, fb, ttl⟩ now none true k v).2.redis_store =
      assocSet store (nsKey k) ⟨Json.obj [], now + ttl⟩ ∧
    (redisGet store now (nsKey k) = some p →
      get_cache ⟨true, store, fb, ttl⟩ now none true k =
        (some (Json.obj []), ⟨true, store, fb, ttl⟩)) := by
  refine ⟨rfl, ?_, rfl, ?_⟩
  · intro hget hage
    simp [get_cache, get_cache_run, hget, hage]
  · intro hget
    simp [get_cache, get_cache_run, hget, deserialize_data]

/-- C10 witness: with TTL 10 at instant 3, a fallback entry stored at
instant 1 is returned as the stored object itself even under a
deserialization fault, and a remote entry read under a deserialization fault
degrades to the empty object. -/
theorem C10_fallback_stores_object_directly_witness :
    get_cache ⟨false, [], [("a", ⟨1, Json.str "obj"⟩)], 10⟩ 3 none true "a" =
      (some (Json.str "obj"), ⟨false, [], [("a", ⟨1, Json.str "obj"⟩)], 10⟩) ∧
    get_cache ⟨true, [("stockxpert:a", ⟨Json.str "obj", 9⟩)], [], 10⟩ 3 none
        true "a" =
      (some (Json.obj []),
        ⟨true, [("stockxpert:a", ⟨Json.str "obj", 9⟩)], [], 10⟩) :=
  ⟨(C10_fallback_stores_object_directly [] [("a", ⟨1, Json.str "obj"⟩)] 10 3
      "a" Json.null (Json.str "obj") Json.null 1 none false true).2.1 rfl
      (by decide),
   (C10_fallback_stores_object_directly
      [("stockxpert:a", ⟨Json.str "obj", 9⟩)] [] 10 3 "a" Json.null Json.null
      (Json.str "obj") 1 none false true).2.2.2 rfl⟩

end StockXpert
